import Mathlib

/-!
Verification of the llms-txt generator core against its specification.

The definitions below are a shallow embedding of the program's core logic:
`src/core/generator.py` (URL validation, categorization, rendering, the run
lifecycle), `src/utils/content_processor.py` (title extraction, fail-soft
content processing), `src/utils/advanced_traversal.py` (docs-mode traversal)
and `src/utils/sitemap_extractor.py` (sitemap URL resolution).  Python
strings are modelled through their character lists; Python's ASCII-relevant
`str` methods (`lower`, `strip`, `title`, substring `in`) are reimplemented
as executable functions, and `urllib.parse.urlparse` is modelled as a
partial parser returning `none` where CPython raises `ValueError`
(unbalanced brackets in the authority component).
-/

namespace LlmsGen

/-- Whitespace stripped by Python's `str.strip()` (ASCII cases). -/
def isPySpace (c : Char) : Bool :=
  c == ' ' || c == '\t' || c == '\n' || c == '\r' || c == '\x0b' || c == '\x0c'

/-- Python `str.strip()`: drop whitespace from both ends. -/
def pyStrip (s : String) : String :=
  ⟨((s.data.dropWhile isPySpace).reverse.dropWhile isPySpace).reverse⟩

/-- Python `str.strip("/")`: drop slashes from both ends. -/
def pyStripSlash (s : String) : String :=
  ⟨((s.data.dropWhile (· == '/')).reverse.dropWhile (· == '/')).reverse⟩

/-- Python `str.lower()` on the ASCII range (`Char.toLower` is the
identity beyond basic latin, like the claims' inputs). -/
def pyLower (s : String) : String := ⟨s.data.map Char.toLower⟩

/-- Helper for `pyTitle`: the flag records whether the previous character
was a letter (i.e. we are inside a word). -/
def pyTitleAux : Bool → List Char → List Char
  | _, [] => []
  | prevAlpha, c :: tl =>
    (if c.isAlpha then (if prevAlpha then Char.toLower c else Char.toUpper c) else c)
      :: pyTitleAux c.isAlpha tl

/-- Python `str.title()` on the ASCII range: uppercase the first letter of
every letter run, lowercase the rest. -/
def pyTitle (s : String) : String := ⟨pyTitleAux false s.data⟩

/-- Python `str.replace(a, b)` for one-character `a` and `b` (the only form
the source uses). -/
def pyReplaceChar (s : String) (a b : Char) : String :=
  ⟨s.data.map fun c => if c == a then b else c⟩

/-- Contiguous-substring search on character lists. -/
def containsAux : List Char → List Char → Bool
  | s, pat =>
    pat.isPrefixOf s ||
      match s with
      | [] => false
      | _ :: tl => containsAux tl pat

/-- Python's substring test `pat in s`. -/
def pyContains (s pat : String) : Bool := containsAux s.data pat.data

/-- Helper for `pySplitFirst`: characters strictly before the first
occurrence of `sep` (the whole list when `sep` does not occur). -/
def takeBefore (sep : List Char) : List Char → List Char
  | [] => []
  | c :: tl => if sep.isPrefixOf (c :: tl) then [] else c :: takeBefore sep tl

/-- Python `s.split(sep)[0]` for non-empty `sep`. -/
def pySplitFirst (s sep : String) : String := ⟨takeBefore sep.data s.data⟩

/-- Characters permitted after the first character of a URL scheme. -/
def isSchemeChar (c : Char) : Bool := c.isAlphanum || c == '+' || c == '-' || c == '.'

/-- Splits a character list at the first colon, if any. -/
def splitAtColon : List Char → Option (List Char × List Char)
  | [] => none
  | c :: tl =>
    if c == ':' then some ([], tl)
    else (splitAtColon tl).map fun p => (c :: p.1, p.2)

/-- Components of a parsed URL that the program consults. -/
structure UrlParts where
  scheme : String
  netloc : String
  path : String
deriving Repr, DecidableEq

/-- Characters that terminate the authority (netloc) component. -/
def endsNetloc (c : Char) : Bool := c == '/' || c == '?' || c == '#'

/-- Characters that terminate the path component. -/
def endsPath (c : Char) : Bool := c == '?' || c == '#'

/-- Model of `urllib.parse.urlparse` restricted to the components the
program reads (scheme, netloc, path).  Returns `none` exactly where CPython
raises `ValueError`: an authority containing `[` without `]` or vice versa.
The scheme is recognised when a colon is preceded by a letter followed by
scheme characters, and is lowercased, as in CPython. -/
def pyUrlparse (url : String) : Option UrlParts :=
  let cs := url.data
  let sr : List Char × List Char :=
    match splitAtColon cs with
    | some p =>
      match p.1 with
      | [] => ([], cs)
      | c :: tl =>
        if c.isAlpha && tl.all isSchemeChar then (p.1.map Char.toLower, p.2) else ([], cs)
    | none => ([], cs)
  if sr.2.take 2 == ['/', '/'] then
    let afterSlashes := sr.2.drop 2
    let netloc := afterSlashes.takeWhile (fun c => !endsNetloc c)
    if (netloc.contains '[' && !netloc.contains ']') ||
        (netloc.contains ']' && !netloc.contains '[') then
      none
    else
      let rest := afterSlashes.dropWhile (fun c => !endsNetloc c)
      some ⟨⟨sr.1⟩, ⟨netloc⟩, ⟨rest.takeWhile (fun c => !endsPath c)⟩⟩
  else
    some ⟨⟨sr.1⟩, "", ⟨sr.2.takeWhile (fun c => !endsPath c)⟩⟩

example : pyUrlparse "https://example.com/docs/a?q=1" =
    some ⟨"https", "example.com", "/docs/a"⟩ := by decide

example : pyUrlparse "http://[::1" = none := by decide

example : pyUrlparse "mailto:bob@example.com" =
    some ⟨"mailto", "", "bob@example.com"⟩ := by decide

example : pyUrlparse "HTTPS://Example.com/X" =
    some ⟨"https", "Example.com", "/X"⟩ := by decide

example : pyContains "hello world" "lo w" = true := by decide
example : pyContains "hello" "" = true := by decide
example : pyContains "" "a" = false := by decide
example : pyLower "AbC" = "abc" := by decide
example : pyTitle "getting started" = "Getting Started" := by decide
example : pyStrip "  hi \n" = "hi" := by decide
example : pyStripSlash "/getting-started/" = "getting-started" := by decide
example : pySplitFirst "My Page | Site" " | " = "My Page" := by decide

/-! Generator core (`src/core/generator.py`). -/

/-- Concatenation of a list of strings (kernel-reducible). -/
def concatAll (l : List String) : String := l.foldl (· ++ ·) ""

/-- Join with a separator, as Python's `sep.join`. -/
def joinSep (sep : String) : List String → String
  | [] => ""
  | [x] => x
  | x :: y :: xs => x ++ sep ++ joinSep sep (y :: xs)

/-- Skip markers of `LLMsTxtGenerator._is_valid_url` (generator.py lines
138-142), checked against the lowercased URL. -/
def skipPatterns : List String :=
  ["#", "javascript:", "mailto:", "tel:", "ftp://",
   ".pdf", ".jpg", ".jpeg", ".png", ".gif", ".svg",
   ".css", ".js", ".xml", ".zip", ".tar", ".gz"]

/-- Model of `LLMsTxtGenerator._is_valid_url` (generator.py lines 123-162).
The configured include/exclude pattern lists are passed explicitly; the
surrounding `try/except` returning `False` is the `none` branch of the URL
parses (the only raising operation in the body). -/
def isValidUrl (includePatterns excludePatterns : List String)
    (url baseUrl : String) : Bool :=
  match pyUrlparse url, pyUrlparse baseUrl with
  | some pu, some pb =>
    if !(pu.scheme == "http" || pu.scheme == "https") then false
    else if pu.netloc != pb.netloc then false
    else if skipPatterns.any (fun p => pyContains (pyLower url) p) then false
    else if excludePatterns.any (fun p => pyContains url p) then false
    else if !includePatterns.isEmpty then includePatterns.any (fun p => pyContains url p)
    else true
  | _, _ => false

/-- One configured category rule: URL substring patterns and title
substring patterns. -/
structure CategoryRule where
  urlPatterns : List String
  titlePatterns : List String
deriving Repr, DecidableEq

/-- Whether one rule matches: URL patterns are checked against the raw URL,
title patterns against the lowercased title (generator.py lines 225-236). -/
def ruleMatches (r : CategoryRule) (url loweredTitle : String) : Bool :=
  r.urlPatterns.any (fun p => pyContains url p) ||
    r.titlePatterns.any (fun p => pyContains loweredTitle p)

/-- Model of `LLMsTxtGenerator._categorize_page` (generator.py lines
218-238): category rules in configured (insertion) order, URL patterns
before title patterns, first match wins, default `"Other"`. -/
def categorizePage : List (String × CategoryRule) → String → String → String
  | [], _, _ => "Other"
  | (cat, r) :: rest, url, title =>
    if r.urlPatterns.any (fun p => pyContains url p) then cat
    else if r.titlePatterns.any (fun p => pyContains (pyLower title) p) then cat
    else categorizePage rest url title

/-- One accumulated page record (an element of `self.pages_data`,
generator.py lines 201-210). -/
structure PageData where
  url : String
  title : String
  description : String
  content : String
  category : String
  source : String
deriving Repr, DecidableEq

/-- Insert a page into the category grouping, modelling the Python dict
with insertion order (generator.py lines 246-251): append to an existing
category's list, or add a new key at the end. -/
def addToGroup : List (String × List PageData) → PageData → List (String × List PageData)
  | [], p => [(p.category, [p])]
  | g :: gs, p =>
    if g.1 == p.category then (g.1, g.2 ++ [p]) :: gs else g :: addToGroup gs p

/-- Grouping of the accumulated pages by category, in category
first-occurrence order. -/
def groupByCategory (pages : List PageData) : List (String × List PageData) :=
  pages.foldl addToGroup []

/-- Lookup of one category's page list in a grouping (empty when absent). -/
def lookupGroup (groups : List (String × List PageData)) (cat : String) : List PageData :=
  ((groups.find? (fun g => g.1 == cat)).map Prod.snd).getD []

/-- The page list rendered for one category. -/
def groupPages (pages : List PageData) (cat : String) : List PageData :=
  lookupGroup (groupByCategory pages) cat

/-- Python `sorted` on strings (stable merge sort, lexicographic by code
point). -/
def sortStrings (l : List String) : List String :=
  l.mergeSort (fun a b => decide (a ≤ b))

/-- Python `sorted(pages, key=lambda x: x["title"])` (stable, compares
titles only). -/
def sortPagesByTitle (l : List PageData) : List PageData :=
  l.mergeSort (fun a b => decide (a.title ≤ b.title))

/-- The category iteration order of every renderer:
`sorted(categories.keys())` (generator.py lines 267, 313, 366). -/
def renderedCategories (pages : List PageData) : List String :=
  sortStrings ((groupByCategory pages).map Prod.fst)

/-- H2 section header: the literal `Optional` replaces category `Other`
(generator.py lines 268-272). -/
def sectionHeader (category : String) : String :=
  if category == "Other" then "## Optional\n\n" else "## " ++ category ++ "\n\n"

/-- Shared document header: H1 title, blockquote description, optional
free-text block (generator.py lines 256-264). -/
def docHeader (name description : String) (additionalInfo : Option String) : String :=
  "# " ++ name ++ "\n\n> " ++ description ++ "\n\n" ++
    (match additionalInfo with
     | some ai => if ai != "" then ai ++ "\n\n" else ""
     | none => "")

/-- One index-form list item (generator.py lines 274-280). -/
def indexEntry (p : PageData) : String :=
  "- [" ++ p.title ++ "](" ++ p.url ++ ")" ++
    (if p.description != "" then ": " ++ p.description else "") ++ "\n"

/-- Model of `LLMsTxtGenerator.generate_llms_txt` (generator.py lines
240-287): the byte content written to `llms.txt`. -/
def generateLlmsTxt (name description : String) (additionalInfo : Option String)
    (pages : List PageData) : String :=
  docHeader name description additionalInfo ++
    concatAll ((renderedCategories pages).map fun cat =>
      sectionHeader cat ++
        concatAll ((sortPagesByTitle (groupPages pages cat)).map indexEntry) ++ "\n")

/-- One full-form entry: list item, blank line, full content, separator
(generator.py lines 320-330). -/
def fullEntry (p : PageData) : String :=
  "- [" ++ p.title ++ "](" ++ p.url ++ ")" ++
    (if p.description != "" then ": " ++ p.description else "") ++ "\n\n" ++
    p.content ++ "\n\n---\n\n"

/-- Model of `LLMsTxtGenerator.generate_llms_full_txt` (generator.py lines
289-335): the byte content written to `llms-full.txt`. -/
def generateLlmsFullTxt (name description : String) (additionalInfo : Option String)
    (pages : List PageData) : String :=
  docHeader name description additionalInfo ++
    concatAll ((renderedCategories pages).map fun cat =>
      sectionHeader cat ++
        concatAll ((sortPagesByTitle (groupPages pages cat)).map fullEntry))

/-- One page element of a context file (generator.py lines 372-375). -/
def ctxPageXml (p : PageData) : String :=
  "<page title=\"" ++ p.title ++ "\" url=\"" ++ p.url ++ "\">\n<content>" ++
    p.content ++ "</content>\n</page>\n"

/-- One section element of a context file (generator.py lines 370-377). -/
def ctxSectionXml (cat : String) (pages : List PageData) : String :=
  "<section name=\"" ++ cat ++ "\">\n" ++ concatAll (pages.map ctxPageXml) ++
    "</section>\n"

/-- Model of `LLMsTxtGenerator._generate_ctx_file` (generator.py lines
349-381): the byte content of one context file; the `Other` category is
skipped unless `includeOptional` is set. -/
def generateCtxFile (name description : String) (pages : List PageData)
    (includeOptional : Bool) : String :=
  "<project title=\"" ++ name ++ "\" summary=\"" ++ description ++ "\">\n" ++
    concatAll ((renderedCategories pages).filterMap fun cat =>
      if cat == "Other" && !includeOptional then none
      else some (ctxSectionXml cat (sortPagesByTitle (groupPages pages cat)))) ++
    "</project>"

/-- Model of `LLMsTxtGenerator.generate_llms_ctx_files` (generator.py
lines 337-347): the two context files it writes, as (file name, content)
pairs.  The file names carry no directory component: the method writes to
the current working directory, not to the configured output directory. -/
def generateLlmsCtxFiles (name description : String) (pages : List PageData) :
    List (String × String) :=
  [("llms-ctx.txt", generateCtxFile name description pages false),
   ("llms-ctx-full.txt", generateCtxFile name description pages true)]

/-- JSON escaping of one character (the cases `json.dump` produces for the
repository's ASCII data). -/
def jsonEscapeChar (c : Char) : List Char :=
  if c == '"' then ['\\', '"']
  else if c == '\\' then ['\\', '\\']
  else if c == '\n' then ['\\', 'n']
  else if c == '\t' then ['\\', 't']
  else if c == '\r' then ['\\', 'r']
  else [c]

/-- JSON string literal. -/
def jsonStr (s : String) : String :=
  "\"" ++ ⟨(s.data.map jsonEscapeChar).flatten⟩ ++ "\""

/-- One page record as pretty-printed JSON (indent 2, insertion-order
keys), as `json.dump` emits it. -/
def pageJson (p : PageData) : String :=
  "  \x7b\n    \"url\": " ++ jsonStr p.url ++
    ",\n    \"title\": " ++ jsonStr p.title ++
    ",\n    \"description\": " ++ jsonStr p.description ++
    ",\n    \"content\": " ++ jsonStr p.content ++
    ",\n    \"category\": " ++ jsonStr p.category ++
    ",\n    \"source\": " ++ jsonStr p.source ++ "\n  \x7d"

/-- Model of `LLMsTxtGenerator.save_data` (generator.py lines 383-387):
the byte content written to `documentation_data.json` — the raw array of
page records. -/
def saveData (pages : List PageData) : String :=
  if pages.isEmpty then "[]"
  else "[\n" ++ joinSep ",\n" (pages.map pageJson) ++ "\n]"

/-- Joining a file name onto the configured output directory
(`Path(output_dir) / name`, generator.py lines 408-410). -/
def pathJoin (dir file : String) : String := dir ++ "/" ++ file

/-- Model of the file-writing tail of `LLMsTxtGenerator.run` (generator.py
lines 403-410), given the accumulated page-data store: the files a
completed run writes, in order, as (path, content) pairs.  `run` invokes
`generate_llms_txt`, `generate_llms_full_txt` and `save_data` — and no
other writer; in particular it never calls `generate_llms_ctx_files`. -/
def runFiles (name description : String) (additionalInfo : Option String)
    (outputDir : String) (pages : List PageData) : List (String × String) :=
  [(pathJoin outputDir "llms.txt", generateLlmsTxt name description additionalInfo pages),
   (pathJoin outputDir "llms-full.txt", generateLlmsFullTxt name description additionalInfo pages),
   (pathJoin outputDir "documentation_data.json", saveData pages)]

/-! Content processor (`src/utils/content_processor.py`). -/

/-- Full split on a non-empty separator, as Python's `s.split(sep)`. -/
def pySplitList (sep : List Char) : List Char → List (List Char)
  | [] => [[]]
  | c :: tl =>
    if sep ≠ [] ∧ sep.isPrefixOf (c :: tl) then
      [] :: pySplitList sep ((c :: tl).drop sep.length)
    else
      match pySplitList sep tl with
      | [] => [[c]]
      | seg :: rest => (c :: seg) :: rest
termination_by l => l.length
decreasing_by
  · simp only [List.length_drop, List.length_cons]
    rename_i hp
    have : 1 ≤ sep.length := by
      cases sep with
      | nil => exact absurd rfl hp.1
      | cons a tl2 => simp
    omega
  · simp

/-- Python `str.splitlines()` for newline-separated text (the embedding
models the `\n` separator; the repository's extracted text is joined on
spaces before any other line break could matter). -/
def pySplitLines (s : String) : List String :=
  let segs := (pySplitList ['\n'] s.data).map (fun l => (⟨l⟩ : String))
  if s == "" then []
  else if s.data.getLast? == some '\n' then segs.dropLast else segs

/-- Whitespace normalization of `_extract_main_content_text`
(content_processor.py lines 216-219): strip each line, split on double
spaces, strip each phrase, join the non-empty chunks with single spaces. -/
def normalizeWs (text : String) : String :=
  let lines := (pySplitLines text).map pyStrip
  let chunks :=
    (lines.map fun l =>
      (pySplitList [' ', ' '] l.data).map fun seg => pyStrip ⟨seg⟩).flatten
  joinSep " " (chunks.filter (· != ""))

/-- One extracted heading (content_processor.py lines 223-231). -/
structure Heading where
  level : Nat
  text : String
  id : String
deriving Repr, DecidableEq

/-- One extracted code block; `kind` is the Python record's `type` field
(content_processor.py lines 233-255). -/
structure CodeBlock where
  kind : String
  language : String
  content : String
deriving Repr, DecidableEq

/-- One extracted link; `kind` is the Python record's `type` field,
`internal` or `external` (content_processor.py lines 274-302). -/
structure LinkInfo where
  url : String
  text : String
  kind : String
deriving Repr, DecidableEq

/-- Abstraction of the cleaned BeautifulSoup parse tree: the values the
extractors of `ContentProcessor` read off it after the cleaning passes.
`titleTag` is the text of the first `title` tag, `h1Texts` the texts of
the `h1` tags in order, `metaTitle` the `content` attribute of
`meta[name=title]` when that tag exists (possibly empty), likewise the two
description sources; `text` is the document text fed to the whitespace
normalizer; the remaining fields are the values the corresponding
extractors produce. -/
structure Soup where
  titleTag : Option String
  h1Texts : List String
  metaTitle : Option String
  metaDescription : Option String
  ogDescription : Option String
  paragraphs : List String
  text : String
  headings : List Heading
  codeBlocks : List CodeBlock
  links : List LinkInfo
  metadata : List (String × String)
deriving Repr, DecidableEq

/-- Suffix separators stripped from the title tag text
(content_processor.py line 157). -/
def titleSuffixes : List String := [" | ", " - ", " — ", " :: "]

/-- Cleaning of the title tag text (content_processor.py lines 155-159):
strip, then chop at each suffix separator present, left to right. -/
def cleanTitle (raw : String) : String :=
  titleSuffixes.foldl
    (fun t suf => if pyContains t suf then pyStrip (pySplitFirst t suf) else t)
    (pyStrip raw)

/-- Stage 1 of `_extract_title` (content_processor.py lines 152-161): the
title tag text, stripped, suffix-stripped, accepted when longer than 3
characters. -/
def titleTagStep (soup : Soup) : Option String :=
  match soup.titleTag with
  | some raw =>
    if cleanTitle raw != "" && (cleanTitle raw).length > 3 then some (cleanTitle raw)
    else none
  | none => none

/-- Acceptance test of one `h1` candidate (content_processor.py lines
165-168): stripped text longer than 3 characters. -/
def acceptLong (h : String) : Option String :=
  if pyStrip h != "" && (pyStrip h).length > 3 then some (pyStrip h) else none

/-- Stage 2 of `_extract_title` (content_processor.py lines 163-168): the
first `h1` whose stripped text is longer than 3 characters. -/
def h1Step (soup : Soup) : Option String :=
  soup.h1Texts.findSome? acceptLong

/-- Stage 3 of `_extract_title` (content_processor.py lines 170-173): the
meta title's content, stripped, accepted whenever non-empty — no length
minimum is applied at this stage. -/
def metaStep (soup : Soup) : Option String :=
  match soup.metaTitle with
  | some c => if c != "" then some (pyStrip c) else none
  | none => none

/-- Title derived from a URL path (content_processor.py line 180). -/
def titleFromPath (path : String) : String :=
  pyTitle (pyReplaceChar (pyReplaceChar (pyStripSlash path) '-' ' ') '_' ' ')

/-- Stage 4 of `_extract_title` (content_processor.py lines 175-182): the
path-derived title, accepted whenever non-empty — no length minimum is
applied at this stage. -/
def pathStep (path : String) : Option String :=
  if path != "" && path != "/" then
    if titleFromPath path != "" then some (titleFromPath path) else none
  else none

/-- Model of `ContentProcessor._extract_title` (content_processor.py lines
150-184), given the already-parsed URL path. -/
def extractTitleFromParts (soup : Soup) (path : String) : String :=
  match titleTagStep soup with
  | some t => t
  | none =>
    match h1Step soup with
    | some t => t
    | none =>
      match metaStep soup with
      | some t => t
      | none =>
        match pathStep path with
        | some t => t
        | none => "Untitled"

/-- Meta-description stage of `_extract_description` (content_processor.py
lines 188-191). -/
def descMetaStep (soup : Soup) : Option String :=
  match soup.metaDescription with
  | some c => if c != "" then some (pyStrip c) else none
  | none => none

/-- The og:description stage (content_processor.py lines 193-196). -/
def descOgStep (soup : Soup) : Option String :=
  match soup.ogDescription with
  | some c => if c != "" then some (pyStrip c) else none
  | none => none

/-- First-paragraph stage (content_processor.py lines 198-203): a stripped
paragraph of length strictly between 50 and 300. -/
def descParaStep (soup : Soup) : Option String :=
  soup.paragraphs.findSome? fun p =>
    let t := pyStrip p
    if 50 < t.length && t.length < 300 then some t else none

/-- Model of `ContentProcessor._extract_description` (content_processor.py
lines 186-205). -/
def extractDescription (soup : Soup) : String :=
  match descMetaStep soup with
  | some t => t
  | none =>
    match descOgStep soup with
    | some t => t
    | none =>
      match descParaStep soup with
      | some t => t
      | none => ""

/-- Model of `ContentProcessor._extract_main_content_text`
(content_processor.py lines 207-221) on the abstract parse tree. -/
def extractMainContentText (soup : Soup) : String := normalizeWs soup.text

/-- The processed record `ContentProcessor.process_content` returns
(content_processor.py lines 46-55 and 61-70). -/
structure Processed where
  url : String
  title : String
  description : String
  mainContent : String
  headings : List Heading
  codeBlocks : List CodeBlock
  links : List LinkInfo
  metadata : List (String × String)
deriving Repr, DecidableEq

/-- The degraded record `process_content` returns from its exception
handler (content_processor.py lines 61-70). -/
def degradedRecord (url : String) : Processed :=
  ⟨url, "Error Processing Content", "Failed to process content", "", [], [], [], []⟩

/-- Model of `ContentProcessor.process_content` (content_processor.py
lines 27-70).  `parsed` is the outcome of parsing and cleaning the HTML
(the fallible prefix of the `try` block); the `error` branch — and a URL
whose parse raises inside `_extract_title` — land in the exception
handler, which returns the degraded record instead of propagating. -/
def processContent (parsed : Except String Soup) (url : String) : Processed :=
  match parsed with
  | .error _ => degradedRecord url
  | .ok soup =>
    match pyUrlparse url with
    | none => degradedRecord url
    | some parts =>
      { url := url
        title := extractTitleFromParts soup parts.path
        description := extractDescription soup
        mainContent := extractMainContentText soup
        headings := soup.headings
        codeBlocks := soup.codeBlocks
        links := soup.links
        metadata := soup.metadata }

/-! Fetching and the page-processing loop (`src/core/generator.py`). -/

/-- Model of `LLMsTxtGenerator.get_page_content` (generator.py lines
164-175).  `fetch` is the ambient network: `ok` is a 2xx response body,
`error` any raised exception (network error, timeout, or the non-2xx
raised by `raise_for_status`).  Every failure maps to the empty string. -/
def getPageContent (fetch : String → Except String String) (url : String) : String :=
  match fetch url with
  | .ok content => content
  | .error _ => ""

/-- One discovered page entry (`{"url": ..., "source": ...}`). -/
structure DiscoveredPage where
  url : String
  source : String
deriving Repr, DecidableEq

/-- The page record `process_pages` appends for one successfully fetched
URL (generator.py lines 192-210).  `parse` models BeautifulSoup parsing
plus cleaning of the fetched HTML. -/
def pageRecordFor (fetch : String → Except String String)
    (parse : String → Except String Soup)
    (rules : List (String × CategoryRule)) (p : DiscoveredPage) : PageData :=
  let processed := processContent (parse (getPageContent fetch p.url)) p.url
  ⟨p.url, processed.title, processed.description, processed.mainContent,
   categorizePage rules processed.url processed.title, p.source⟩

/-- Loop body of `process_pages`, accumulating `pages_data`. -/
def processPagesAux (fetch : String → Except String String)
    (parse : String → Except String Soup) (rules : List (String × CategoryRule))
    (acc : List PageData) : List DiscoveredPage → List PageData
  | [] => acc
  | p :: rest =>
    if getPageContent fetch p.url != "" then
      processPagesAux fetch parse rules (acc ++ [pageRecordFor fetch parse rules p]) rest
    else
      processPagesAux fetch parse rules acc rest

/-- Model of `LLMsTxtGenerator.process_pages` (generator.py lines
177-216): the accumulated page-data store after processing a discovered
batch. -/
def processPages (fetch : String → Except String String)
    (parse : String → Except String Soup) (rules : List (String × CategoryRule))
    (discovered : List DiscoveredPage) : List PageData :=
  processPagesAux fetch parse rules [] discovered

/-! Docs-mode traversal (`src/utils/advanced_traversal.py`). -/

/-- What `_fetch_page` returns on success, abstracted: the page's anchor
URLs after `urljoin` resolution (advanced_traversal.py lines 183-204). -/
structure FetchedPage where
  title : String
  anchors : List String
deriving Repr, DecidableEq

/-- One traversal result (url and depth tag; advanced_traversal.py lines
80-84). -/
structure TravPage where
  url : String
  depth : Nat
deriving Repr, DecidableEq

/-- Documentation link patterns (advanced_traversal.py lines 272-279). -/
def docPatterns : List String :=
  ["/docs/", "/documentation/", "/guide/", "/tutorial/", "/api/", "/reference/"]

/-- Model of `_extract_documentation_links` (advanced_traversal.py lines
266-288): the page's anchors whose lowercased URL contains a documentation
pattern. -/
def extractDocumentationLinks (anchors : List String) : List String :=
  anchors.filter fun u => docPatterns.any fun p => pyContains (pyLower u) p

/-- Loop of `_traverse_documentation` (advanced_traversal.py lines 64-100)
over the FIFO queue of (url, depth) pairs, with the visited set, the
result accumulator, and a ghost log of the URLs passed to `_fetch_page`,
in order.  Termination: each iteration pops one queue entry, and enqueues
(at most 10 links) only when it also appends a result, which the
`max_pages` guard bounds. -/
def traverseDocAux (fetch : String → Option FetchedPage) (maxPages maxDepth : Nat) :
    List (String × Nat) → List String → List TravPage → List String →
      List TravPage × List String
  | [], _, pages, flog => (pages, flog)
  | (url, depth) :: rest, visited, pages, flog =>
    if maxPages ≤ pages.length then (pages, flog)
    else if depth > maxDepth || visited.contains url then
      traverseDocAux fetch maxPages maxDepth rest visited pages flog
    else
      match fetch url with
      | none => traverseDocAux fetch maxPages maxDepth rest (url :: visited) pages (flog ++ [url])
      | some pd =>
        let enq := ((extractDocumentationLinks pd.anchors).take 10).filter
          (fun l => !(url :: visited).contains l)
        traverseDocAux fetch maxPages maxDepth
          (rest ++ enq.map (fun l => (l, depth + 1))) (url :: visited)
          (pages ++ [⟨url, depth⟩]) (flog ++ [url])
termination_by q _ pages _ => q.length + 11 * (maxPages - pages.length)
decreasing_by
  · simp only [List.length_cons]; omega
  · simp only [List.length_cons]; omega
  · simp only [List.length_append, List.length_cons, List.length_map]
    have h10 : (((extractDocumentationLinks pd.anchors).take 10).filter
        (fun l => !(url :: visited).contains l)).length ≤ 10 := by
      refine le_trans (List.length_filter_le _ _) ?_
      exact List.length_take_le 10 (extractDocumentationLinks pd.anchors)
    omega

/-- Model of `AdvancedWebsiteTraverser._traverse_documentation`
(advanced_traversal.py lines 64-100): the pages a docs-mode traversal
returns, starting from a fresh visited set as `traverse_website` does on a
new traverser. -/
def traverseDocumentation (fetch : String → Option FetchedPage)
    (docsUrl : String) (maxPages maxDepth : Nat) : List TravPage :=
  (traverseDocAux fetch maxPages maxDepth [(docsUrl, 0)] [] [] []).1

/-- The URLs a docs-mode traversal passes to `_fetch_page`, in order. -/
def traverseDocFetchLog (fetch : String → Option FetchedPage)
    (docsUrl : String) (maxPages maxDepth : Nat) : List String :=
  (traverseDocAux fetch maxPages maxDepth [(docsUrl, 0)] [] [] []).2

/-! Sitemap resolution (`src/utils/sitemap_extractor.py`). -/

/-- Skip markers of `SitemapExtractor._is_valid_url` (sitemap_extractor.py
lines 253-270).  Note the list differs from `skipPatterns`: it has `ftp:`
rather than `ftp://`, adds `.exe` and `.json`, and lacks `.svg`, `.tar`
and `.gz`. -/
def sitemapSkipPatterns : List String :=
  ["#", "mailto:", "javascript:", "tel:", "ftp:",
   ".pdf", ".zip", ".exe", ".jpg", ".jpeg", ".png", ".gif",
   ".css", ".js", ".xml", ".json"]

/-- Model of `SitemapExtractor._is_valid_url` (sitemap_extractor.py lines
238-279): scheme, same host, and the sitemap extractor's own skip list —
no include/exclude patterns are consulted. -/
def sitemapIsValidUrl (url baseUrl : String) : Bool :=
  match pyUrlparse url, pyUrlparse baseUrl with
  | some pu, some pb =>
    if !(pu.scheme == "http" || pu.scheme == "https") then false
    else if pu.netloc != pb.netloc then false
    else if sitemapSkipPatterns.any (fun p => pyContains (pyLower url) p) then false
    else true
  | _, _ => false

/-- A fetched-and-parsed XML sitemap tree: a leaf carries the `url/loc`
texts of a regular sitemap; an index node carries the trees of the child
sitemaps its `sitemap/loc` entries reach (a child whose fetch or parse
fails contributes the empty leaf, per the non-fatal error handling of
`_extract_urls_from_sitemap_url`). -/
inductive SitemapTree where
  | leaf (locs : List String) : SitemapTree
  | index (children : List SitemapTree) : SitemapTree

/-- Model of `SitemapExtractor._parse_xml_sitemap` (sitemap_extractor.py
lines 149-185): a regular sitemap yields its non-empty `loc` texts; a
sitemap index recursively resolves each child and concatenates. -/
def parseXmlSitemap : SitemapTree → List String
  | .leaf locs => locs.filter (· != "")
  | .index children => (children.attach.map fun c => parseXmlSitemap c.1).flatten
decreasing_by
  have := List.sizeOf_lt_of_mem c.2
  simp only [SitemapTree.index.sizeOf_spec]
  omega

/-- Model of the final stage of
`SitemapExtractor.extract_urls_from_sitemap` (sitemap_extractor.py lines
54-71): all URLs from the discovered XML sitemaps and HTML sitemap pages
are merged, deduplicated (`list(set(...))`), and filtered through the
extractor's own validity check.  No include/exclude configuration enters
this function. -/
def extractUrlsFromSitemap (baseUrl : String) (xmlSources : List SitemapTree)
    (htmlSourceUrls : List String) : List String :=
  let allUrls := (xmlSources.map parseXmlSitemap).flatten ++ htmlSourceUrls
  allUrls.dedup.filter fun u => sitemapIsValidUrl u baseUrl

/-! Concrete worlds used by individual claims. -/

/-- Parse-tree abstraction with no title tag, no h1, no meta tags, no
text: every extractor sees an empty document. -/
def emptySoup : Soup := ⟨none, [], none, none, none, [], "", [], [], [], []⟩

/-- Document whose only title source is a two-character meta title. -/
def soupMetaShort : Soup := { emptySoup with metaTitle := some "ab" }

/-- Document with a suffixed title tag. -/
def soupTitled : Soup := { emptySoup with titleTag := some "Long Title | Site" }

/-- Network for the C9 batch: one URL raises, the others return a body. -/
def c9Fetch : String → Except String String := fun u =>
  if u = "https://e.com/bad" then Except.error "timeout"
  else Except.ok "<html>ok</html>"

/-- Parser world for the C9 batch: every body parses to the empty page. -/
def c9Parse : String → Except String Soup := fun _ => Except.ok emptySoup

/-- Thirty distinct on-topic anchors for the traversal seed page. -/
def seedAnchors : List String :=
  (List.range 30).map fun i =>
    "https://docs.example.com/docs/" ++ (⟨List.replicate i 'a'⟩ : String)

/-- Network for the traversal bound witness: only the seed URL resolves,
to a page carrying thirty documentation links. -/
def c4Fetch : String → Option FetchedPage := fun u =>
  if u = "https://docs.example.com/" then some ⟨"Docs", seedAnchors⟩ else none

/-! Helper lemmas. -/

/-- ASCII uppercase test on the character's code point. -/
def isAsciiUpper (c : Char) : Bool := decide (65 ≤ c.toNat) && decide (c.toNat ≤ 90)

theorem toNat_ofNat_valid {m : Nat} (h : m.isValidChar) : (Char.ofNat m).toNat = m := by
  rw [Char.ofNat, dif_pos h]; rfl

theorem toLower_toNat_not_upper (c : Char) :
    ¬(65 ≤ (Char.toLower c).toNat ∧ (Char.toLower c).toNat ≤ 90) := by
  simp only [Char.toLower]
  split
  · next h =>
    have hv : (c.toNat + 32).isValidChar := Or.inl (by omega)
    rw [toNat_ofNat_valid hv]
    omega
  · next h => omega

theorem isAsciiUpper_toLower (c : Char) : isAsciiUpper (Char.toLower c) = false := by
  have := toLower_toNat_not_upper c
  simp only [isAsciiUpper, Bool.and_eq_false_iff, decide_eq_false_iff_not]
  omega

theorem containsAux_subset {s pat : List Char} (h : containsAux s pat = true) :
    pat ⊆ s := by
  induction s with
  | nil =>
    simp only [containsAux, Bool.or_false] at h
    exact (List.isPrefixOf_iff_prefix.mp h).subset
  | cons c tl ih =>
    simp only [containsAux, Bool.or_eq_true] at h
    rcases h with hp | hm
    · exact (List.isPrefixOf_iff_prefix.mp hp).subset
    · exact fun x hx => List.mem_cons_of_mem c (ih hm hx)

theorem pyContains_pyLower_no_upper (title pat : String)
    (h : ∃ c ∈ pat.data, isAsciiUpper c = true) :
    pyContains (pyLower title) pat = false := by
  obtain ⟨c, hc, hup⟩ := h
  by_contra hcon
  rw [Bool.not_eq_false] at hcon
  have hsub : pat.data ⊆ (pyLower title).data := containsAux_subset hcon
  have hmem : c ∈ (pyLower title).data := hsub hc
  simp only [pyLower, List.mem_map] at hmem
  obtain ⟨a, _, ha⟩ := hmem
  rw [← ha, isAsciiUpper_toLower] at hup
  exact Bool.false_ne_true hup

/-! Claim theorems. -/

/-- C5: the categorizer is a pure deterministic function that iterates the
configured category rules in insertion order, checks each rule's URL
substring patterns before its title substring patterns, and returns the
first category any of whose patterns matches, with `"Other"` as the
no-match default; in particular a rule `API ↦ url patterns ["/api/"]`
categorizes a page with URL containing `/api/` and title `"Guide"` as
`"API"`. -/
theorem categorizePage_first_match :
    (∀ (rules : List (String × CategoryRule)) (url title : String),
      categorizePage rules url title =
        ((rules.find? fun pr => ruleMatches pr.2 url (pyLower title)).map Prod.fst).getD
          "Other")
    ∧ categorizePage [("API", ⟨["/api/"], []⟩)] "https://docs.example.com/api/ref" "Guide"
        = "API"
    ∧ categorizePage [("API", ⟨["/api/"], []⟩)] "https://docs.example.com/about" "Guide"
        = "Other" := by
  refine ⟨?_, by decide, by decide⟩
  intro rules url title
  induction rules with
  | nil => simp [categorizePage]
  | cons pr rest ih =>
    obtain ⟨cat, r⟩ := pr
    by_cases h1 : r.urlPatterns.any (fun p => pyContains url p) = true
    · simp [categorizePage, h1, List.find?_cons, ruleMatches]
    · by_cases h2 : r.titlePatterns.any (fun p => pyContains (pyLower title) p) = true
      · simp [categorizePage, h1, h2, List.find?_cons, ruleMatches]
      · simp [categorizePage, h1, h2, List.find?_cons, ruleMatches, ih]

/-- C10: the categorizer lowercases the page title but not the configured
title patterns, so a title pattern containing an ASCII uppercase character
never matches any page via title patterns; URL patterns are matched
case-sensitively against the unmodified URL. -/
theorem categorizePage_case_sensitivity :
    (∀ (title pat : String), (∃ c ∈ pat.data, isAsciiUpper c = true) →
      pyContains (pyLower title) pat = false)
    ∧ categorizePage [("API", ⟨[], ["Guide"]⟩)] "https://e.com/x" "Guide" = "Other"
    ∧ categorizePage [("API", ⟨["/API/"], []⟩)] "https://e.com/API/ref" "a title" = "API"
    ∧ categorizePage [("API", ⟨["/API/"], []⟩)] "https://e.com/api/ref" "a title" = "Other"
    := by
  exact ⟨pyContains_pyLower_no_upper, by decide, by decide, by decide⟩

/-- C10 witness: the uppercase title pattern `"Guide"` does not match even
a page whose own title is exactly `"Guide"`. -/
theorem categorizePage_case_sensitivity_witness :
    pyContains (pyLower "Guide") "Guide" = false :=
  categorizePage_case_sensitivity.1 "Guide" "Guide" ⟨'G', by decide, by decide⟩

/-- C8: content extraction fails soft — for every internal processing
error it returns the degraded record with sentinel title
`"Error Processing Content"` and empty main content, instead of
propagating the exception. -/
theorem processContent_fail_soft :
    ∀ (e url : String),
      processContent (Except.error e) url = degradedRecord url
      ∧ (processContent (Except.error e) url).title = "Error Processing Content"
      ∧ (processContent (Except.error e) url).mainContent = ""
      ∧ (degradedRecord url).url = url := by
  intro e url
  exact ⟨rfl, rfl, rfl, rfl⟩

/-- C9: the page fetcher maps every raised failure (network error,
timeout, non-2xx) to the empty-content result, and the page-processing
loop therefore processes the whole batch: a failed URL contributes no
record while every successfully fetched page's record is kept, in order.
The concrete batch shows one failing URL among two succeeding ones. -/
theorem processPages_fetch_isolation :
    (∀ (fetch : String → Except String String) (url e : String),
      fetch url = Except.error e → getPageContent fetch url = "")
    ∧ (∀ fetch parse rules (discovered : List DiscoveredPage),
        processPages fetch parse rules discovered =
          discovered.filterMap fun p =>
            if getPageContent fetch p.url != "" then
              some (pageRecordFor fetch parse rules p)
            else none)
    ∧ ((processPages c9Fetch c9Parse []
          [⟨"https://e.com/a", "link_discovery"⟩, ⟨"https://e.com/bad", "link_discovery"⟩,
           ⟨"https://e.com/c", "link_discovery"⟩]).map PageData.url
        = ["https://e.com/a", "https://e.com/c"]) := by
  refine ⟨?_, ?_, by decide⟩
  · intro fetch url e h
    simp [getPageContent, h]
  · intro fetch parse rules discovered
    rw [processPages]
    have key : ∀ (ds : List DiscoveredPage) (acc : List PageData),
        processPagesAux fetch parse rules acc ds =
          acc ++ ds.filterMap fun p =>
            if getPageContent fetch p.url != "" then
              some (pageRecordFor fetch parse rules p)
            else none := by
      intro ds
      induction ds with
      | nil => intro acc; simp [processPagesAux]
      | cons p rest ih =>
        intro acc
        by_cases h : getPageContent fetch p.url = ""
        · simp [processPagesAux, h, ih, List.filterMap_cons]
        · simp [processPagesAux, h, ih, List.filterMap_cons]
    simpa using key discovered []

/-- C9 witness: a URL whose fetch raises resolves to empty content. -/
theorem processPages_fetch_isolation_witness :
    getPageContent c9Fetch "https://e.com/bad" = "" :=
  processPages_fetch_isolation.1 c9Fetch "https://e.com/bad" "timeout" (by rfl)

theorem pathJoin_ne_of_length_ne (d : String) {a b : String}
    (h : a.length ≠ b.length) : pathJoin d a ≠ pathJoin d b := by
  intro he
  apply h
  have hl := congrArg String.length he
  simp only [pathJoin, String.length_append] at hl
  omega

/-- C1 counterexample: a completed run writes exactly three artifacts —
`llms.txt`, `llms-full.txt` and `documentation_data.json`; neither context
file appears among the files `run` writes, at this concrete
configuration. -/
theorem runFiles_no_ctx_counterexample :
    ((runFiles "Docs" "Desc" none "out" []).map Prod.fst =
      ["out/llms.txt", "out/llms-full.txt", "out/documentation_data.json"])
    ∧ "out/llms-ctx.txt" ∉ (runFiles "Docs" "Desc" none "out" []).map Prod.fst
    ∧ "out/llms-ctx-full.txt" ∉ (runFiles "Docs" "Desc" none "out" []).map Prod.fst := by
  exact ⟨by decide, by decide, by decide⟩

/-- C1 amended: every completed generation run writes exactly three output
artifacts into the configured output directory — `llms.txt` (index form),
`llms-full.txt` (full form) and `documentation_data.json` (raw array of
page records); the two context files are produced only by
`generate_llms_ctx_files` (default variant excluding `Other`, full variant
including it, both in the working directory), which `run` never invokes. -/
theorem runFiles_three_artifacts :
    ∀ (name description : String) (additionalInfo : Option String)
      (outputDir : String) (pages : List PageData),
      ((runFiles name description additionalInfo outputDir pages).map Prod.fst =
        [pathJoin outputDir "llms.txt", pathJoin outputDir "llms-full.txt",
         pathJoin outputDir "documentation_data.json"])
      ∧ pathJoin outputDir "llms-ctx.txt" ∉
          (runFiles name description additionalInfo outputDir pages).map Prod.fst
      ∧ pathJoin outputDir "llms-ctx-full.txt" ∉
          (runFiles name description additionalInfo outputDir pages).map Prod.fst
      ∧ (generateLlmsCtxFiles name description pages).map Prod.fst =
          ["llms-ctx.txt", "llms-ctx-full.txt"] := by
  intro name description additionalInfo outputDir pages
  refine ⟨rfl, ?_, ?_, rfl⟩
  · simp only [runFiles, List.map_cons, List.map_nil, List.mem_cons,
      List.not_mem_nil, or_false]
    push_neg
    exact ⟨pathJoin_ne_of_length_ne outputDir (by decide),
      pathJoin_ne_of_length_ne outputDir (by decide),
      pathJoin_ne_of_length_ne outputDir (by decide)⟩
  · simp only [runFiles, List.map_cons, List.map_nil, List.mem_cons,
      List.not_mem_nil, or_false]
    push_neg
    exact ⟨pathJoin_ne_of_length_ne outputDir (by decide),
      pathJoin_ne_of_length_ne outputDir (by decide),
      pathJoin_ne_of_length_ne outputDir (by decide)⟩

/-- C2: the URL validator accepts exactly the candidates that pass, in
order: http/https scheme, exact host equality with the base URL, none of
the fixed denylist markers in the lowercased candidate, no exclude pattern
as a substring, and — when include patterns are configured — at least one
include pattern as a substring; a cross-origin candidate is always
rejected whatever the pattern configuration, and a parse failure on either
URL yields `false`. -/
theorem isValidUrl_rules :
    (∀ (inc exc : List String) (url base : String),
      isValidUrl inc exc url base = true ↔
        ∃ pu pb : UrlParts, pyUrlparse url = some pu ∧ pyUrlparse base = some pb ∧
          (pu.scheme = "http" ∨ pu.scheme = "https") ∧
          pu.netloc = pb.netloc ∧
          (∀ m ∈ skipPatterns, pyContains (pyLower url) m = false) ∧
          (∀ p ∈ exc, pyContains url p = false) ∧
          (inc = [] ∨ ∃ p ∈ inc, pyContains url p = true))
    ∧ (∀ inc exc : List String,
        isValidUrl inc exc "https://other.example/x" "https://example.com" = false)
    ∧ (∀ (inc exc : List String) (url base : String),
        pyUrlparse url = none ∨ pyUrlparse base = none →
          isValidUrl inc exc url base = false) := by
  refine ⟨?_, ?_, ?_⟩
  · intro inc exc url base
    cases hpu : pyUrlparse url with
    | none => simp [isValidUrl, hpu]
    | some pu =>
      cases hpb : pyUrlparse base with
      | none => simp [isValidUrl, hpu, hpb]
      | some pb =>
        simp only [isValidUrl, hpu, hpb]
        constructor
        · intro h
          refine ⟨pu, pb, rfl, rfl, ?_⟩
          split at h
          · exact absurd h (by simp)
          · next h1 =>
            split at h
            · exact absurd h (by simp)
            · next h2 =>
              split at h
              · exact absurd h (by simp)
              · next h3 =>
                split at h
                · exact absurd h (by simp)
                · next h4 =>
                  refine ⟨?_, ?_, ?_, ?_, ?_⟩
                  · exact or_iff_not_imp_left.mpr (by simpa using h1)
                  · simpa using h2
                  · intro m hm
                    rw [Bool.not_eq_true] at h3
                    simpa using (List.any_eq_false.mp h3) m hm
                  · intro p hp
                    rw [Bool.not_eq_true] at h4
                    simpa using (List.any_eq_false.mp h4) p hp
                  · split at h
                    · next h5 =>
                      exact Or.inr (List.any_eq_true.mp h)
                    · next h5 =>
                      have h6 : inc.isEmpty = true := by simpa using h5
                      exact Or.inl (List.isEmpty_iff.mp h6)
        · rintro ⟨pu', pb', hpu', hpb', hs, hn, hd, he, hi⟩
          obtain rfl : pu' = pu := (Option.some.inj hpu').symm
          obtain rfl : pb' = pb := (Option.some.inj hpb').symm
          have b1 : (pu'.scheme == "http" || pu'.scheme == "https") = true := by
            rcases hs with h | h <;> simp [h]
          have b2 : (pu'.netloc != pb'.netloc) = false := by simp [hn]
          have b3 : (skipPatterns.any fun p => pyContains (pyLower url) p) = false :=
            List.any_eq_false.mpr (by intro m hm; simp [hd m hm])
          have b4 : (exc.any fun p => pyContains url p) = false :=
            List.any_eq_false.mpr (by intro p hp; simp [he p hp])
          rcases hi with hi | ⟨p, hp, hc⟩
          · simp [b1, b2, b3, b4, hi]
          · have b5 : (inc.any fun p => pyContains url p) = true :=
              List.any_eq_true.mpr ⟨p, hp, hc⟩
            simp [b1, b2, b3, b4, b5]
  · intro inc exc
    have h1 : pyUrlparse "https://other.example/x" =
        some ⟨"https", "other.example", "/x"⟩ := by decide
    have h2 : pyUrlparse "https://example.com" =
        some ⟨"https", "example.com", ""⟩ := by decide
    simp [isValidUrl, h1, h2, bne]
  · intro inc exc url base h
    rcases h with h | h
    · cases hb : pyUrlparse base <;> simp [isValidUrl, h, hb]
    · cases ha : pyUrlparse url <;> simp [isValidUrl, h, ha]

/-- C2 witness: a candidate whose parse fails (unbalanced bracket in the
authority) is rejected. -/
theorem isValidUrl_rules_witness :
    isValidUrl [] [] "http://[::1" "https://example.com" = false :=
  isValidUrl_rules.2.2 [] [] "http://[::1" "https://example.com" (Or.inl (by decide))

theorem sortStrings_sorted (l : List String) : List.Sorted (· ≤ ·) (sortStrings l) := by
  have htrans : ∀ a b c : String, decide (a ≤ b) = true → decide (b ≤ c) = true →
      decide (a ≤ c) = true := by
    intro a b c hab hbc
    simp only [decide_eq_true_eq] at hab hbc ⊢
    exact le_trans hab hbc
  have htot : ∀ a b : String, (decide (a ≤ b) || decide (b ≤ a)) = true := by
    intro a b
    simp only [Bool.or_eq_true, decide_eq_true_eq]
    exact le_total a b
  have h := List.sorted_mergeSort htrans htot l
  exact h.imp fun hab => by simpa using hab

theorem sortPagesByTitle_sorted (l : List PageData) :
    List.Pairwise (fun a b : PageData => a.title ≤ b.title) (sortPagesByTitle l) := by
  have htrans : ∀ a b c : PageData, decide (a.title ≤ b.title) = true →
      decide (b.title ≤ c.title) = true → decide (a.title ≤ c.title) = true := by
    intro a b c hab hbc
    simp only [decide_eq_true_eq] at hab hbc ⊢
    exact le_trans hab hbc
  have htot : ∀ a b : PageData,
      (decide (a.title ≤ b.title) || decide (b.title ≤ a.title)) = true := by
    intro a b
    simp only [Bool.or_eq_true, decide_eq_true_eq]
    exact le_total a.title b.title
  have h := List.sorted_mergeSort htrans htot l
  exact h.imp fun hab => by simpa using hab

theorem lookupGroup_cons (g : String × List PageData)
    (l : List (String × List PageData)) (cat : String) :
    lookupGroup (g :: l) cat = if g.1 = cat then g.2 else lookupGroup l cat := by
  by_cases h : g.1 = cat
  · simp [lookupGroup, List.find?_cons, h]
  · simp [lookupGroup, List.find?_cons, h]

theorem lookupGroup_addToGroup (gs : List (String × List PageData)) (p : PageData)
    (cat : String) :
    lookupGroup (addToGroup gs p) cat =
      if p.category = cat then lookupGroup gs cat ++ [p] else lookupGroup gs cat := by
  induction gs with
  | nil =>
    rw [show addToGroup [] p = [(p.category, [p])] from rfl, lookupGroup_cons]
    by_cases h : p.category = cat
    · simp [h, lookupGroup]
    · simp [h, lookupGroup]
  | cons g gs ih =>
    by_cases hgp : g.1 = p.category
    · have hred : addToGroup (g :: gs) p = (g.1, g.2 ++ [p]) :: gs := by
        simp [addToGroup, hgp]
      rw [hred, lookupGroup_cons, lookupGroup_cons]
      by_cases hgc : g.1 = cat
      · have hpc : p.category = cat := hgp ▸ hgc
        simp [hgc, hpc]
      · have hpc : ¬p.category = cat := fun hh => hgc (hgp.trans hh)
        simp [hgc, hpc]
    · have hred : addToGroup (g :: gs) p = g :: addToGroup gs p := by
        simp [addToGroup, hgp]
      rw [hred, lookupGroup_cons, lookupGroup_cons, ih]
      by_cases hgc : g.1 = cat
      · have hpc : ¬p.category = cat := fun hh => hgp (hgc.trans hh.symm)
        simp [hgc, hpc]
      · by_cases hpc : p.category = cat <;> simp [hgc, hpc]

theorem lookupGroup_foldl (cat : String) (pages : List PageData) :
    ∀ acc : List (String × List PageData),
      lookupGroup (pages.foldl addToGroup acc) cat =
        lookupGroup acc cat ++ pages.filter (fun p => p.category == cat) := by
  induction pages with
  | nil => intro acc; simp
  | cons p ps ih =>
    intro acc
    simp only [List.foldl_cons, List.filter_cons]
    rw [ih, lookupGroup_addToGroup]
    by_cases h : p.category = cat
    · simp [h]
    · simp [h]

theorem groupPages_filter (pages : List PageData) (cat : String) :
    groupPages pages cat = pages.filter fun p => p.category == cat := by
  have h := lookupGroup_foldl cat pages []
  simpa [groupPages, groupByCategory, lookupGroup] using h

/-- C3: the index-form renderer groups the accumulated pages by category,
iterates the categories in lexicographic order and, within each category,
the pages in lexicographic order by title, substitutes the H2 header
`Optional` for the category `Other`, and — being a pure function of the
accumulated page set — renders the same page set to byte-identical output
twice. -/
theorem generateLlmsTxt_order :
    (∀ (name description : String) (additionalInfo : Option String)
        (pages : List PageData),
      generateLlmsTxt name description additionalInfo pages =
        generateLlmsTxt name description additionalInfo pages)
    ∧ (∀ pages : List PageData, List.Sorted (· ≤ ·) (renderedCategories pages))
    ∧ (∀ (pages : List PageData) (cat : String),
        List.Pairwise (fun a b : PageData => a.title ≤ b.title)
          (sortPagesByTitle (groupPages pages cat)))
    ∧ (∀ (pages : List PageData) (cat : String),
        groupPages pages cat = pages.filter fun p => p.category == cat)
    ∧ (∀ cat : String, sectionHeader cat =
        if cat = "Other" then "## Optional\n\n" else "## " ++ cat ++ "\n\n") := by
  refine ⟨fun _ _ _ _ => rfl, fun pages => sortStrings_sorted _,
    fun pages cat => sortPagesByTitle_sorted _, groupPages_filter, ?_⟩
  intro cat
  by_cases h : cat = "Other"
  · simp [sectionHeader, h]
  · simp [sectionHeader, h]

/-- C6 counterexample: a document with no title tag, no h1 and a
two-character meta title yields the meta title `"ab"` — a candidate of
length 2 is accepted, so the minimum length of 4 does not gate every stage
of the fallback chain (were it applied, the URL path `/getting-started`
would have produced `"Getting Started"`). -/
theorem extractTitle_minLength_counterexample :
    extractTitleFromParts soupMetaShort "/getting-started" = "ab"
    ∧ ("ab" : String).length < 4
    ∧ extractTitleFromParts soupMetaShort "/getting-started" ≠ "Getting Started" := by
  exact ⟨by decide, by decide, by decide⟩

/-- C6 amended: title extraction follows the fallback chain title tag
(suffix-stripped, accepted only when longer than 3 characters) → first
suitable h1 (same minimum) → meta title (accepted whenever its content is
non-empty, with no minimum length) → URL-path-derived title (hyphens and
underscores to spaces, title-cased, accepted whenever non-empty, with no
minimum length) → literal `"Untitled"`; a document with no title tag, no
h1 and no meta title and path `/getting-started` yields
`"Getting Started"`. -/
theorem extractTitle_fallback_chain :
    (∀ (soup : Soup) (t : String), titleTagStep soup = some t → 3 < t.length)
    ∧ (∀ (soup : Soup) (t : String), h1Step soup = some t → 3 < t.length)
    ∧ (∀ (soup : Soup) (c : String), soup.metaTitle = some c → c ≠ "" →
        metaStep soup = some (pyStrip c))
    ∧ (∀ (soup : Soup) (path t : String), titleTagStep soup = some t →
        extractTitleFromParts soup path = t)
    ∧ (∀ (soup : Soup) (path t : String), titleTagStep soup = none →
        h1Step soup = some t → extractTitleFromParts soup path = t)
    ∧ (∀ (soup : Soup) (path t : String), titleTagStep soup = none →
        h1Step soup = none → metaStep soup = some t →
        extractTitleFromParts soup path = t)
    ∧ (∀ (soup : Soup) (path t : String), titleTagStep soup = none →
        h1Step soup = none → metaStep soup = none → pathStep path = some t →
        extractTitleFromParts soup path = t)
    ∧ (∀ (soup : Soup) (path : String), titleTagStep soup = none →
        h1Step soup = none → metaStep soup = none → pathStep path = none →
        extractTitleFromParts soup path = "Untitled")
    ∧ extractTitleFromParts emptySoup "/getting-started" = "Getting Started" := by
  refine ⟨?_, ?_, ?_, ?_, ?_, ?_, ?_, ?_, by decide⟩
  · intro soup t h
    cases hs : soup.titleTag with
    | none => simp [titleTagStep, hs] at h
    | some raw =>
      simp only [titleTagStep, hs] at h
      split at h
      · next hcond =>
        obtain rfl : cleanTitle raw = t := Option.some.inj h
        simp only [Bool.and_eq_true, bne_iff_ne, ne_eq, decide_eq_true_eq] at hcond
        exact hcond.2
      · exact absurd h (by simp)
  · intro soup t h
    obtain ⟨a, _, ha⟩ := List.exists_of_findSome?_eq_some h
    simp only [acceptLong] at ha
    split at ha
    · next hcond =>
      obtain rfl : pyStrip a = t := Option.some.inj ha
      simp only [Bool.and_eq_true, bne_iff_ne, ne_eq, decide_eq_true_eq] at hcond
      exact hcond.2
    · exact absurd ha (by simp)
  · intro soup c hc hne
    simp [metaStep, hc, hne]
  · intro soup path t h
    simp [extractTitleFromParts, h]
  · intro soup path t h1 h2
    simp [extractTitleFromParts, h1, h2]
  · intro soup path t h1 h2 h3
    simp [extractTitleFromParts, h1, h2, h3]
  · intro soup path t h1 h2 h3 h4
    simp [extractTitleFromParts, h1, h2, h3, h4]
  · intro soup path h1 h2 h3 h4
    simp [extractTitleFromParts, h1, h2, h3, h4]

/-- C6 witness: the length gate fires on the title-tag stage, and the
two-character meta title is accepted through the chain. -/
theorem extractTitle_fallback_chain_witness :
    3 < ("Long Title" : String).length
    ∧ metaStep soupMetaShort = some (pyStrip "ab")
    ∧ extractTitleFromParts soupMetaShort "/x" = "ab" := by
  refine ⟨extractTitle_fallback_chain.1 soupTitled "Long Title" (by decide),
    extractTitle_fallback_chain.2.2.1 soupMetaShort "ab" (by decide) (by decide),
    extractTitle_fallback_chain.2.2.2.2.2.1 soupMetaShort "/x" "ab"
      (by decide) (by decide) (by decide)⟩

/-- C7 counterexample: the sitemap resolver's validity filter is not the
same as the URL validator's — a same-origin `.svg` URL passes the sitemap
filter (whose denylist lacks `.svg`) and is returned, yet the URL
validator rejects it. -/
theorem sitemap_filter_counterexample :
    extractUrlsFromSitemap "https://example.com"
        [SitemapTree.leaf ["https://example.com/logo.svg"]] []
      = ["https://example.com/logo.svg"]
    ∧ sitemapIsValidUrl "https://example.com/logo.svg" "https://example.com" = true
    ∧ isValidUrl [] [] "https://example.com/logo.svg" "https://example.com" = false := by
  refine ⟨?_, by decide, by decide⟩
  simp only [extractUrlsFromSitemap, parseXmlSitemap, List.map_cons, List.map_nil]
  decide

/-- C7 amended: the sitemap resolver's final result is deduplicated and
contains exactly the merged sitemap URLs that pass the resolver's own
origin/scheme/denylist filter (`sitemapIsValidUrl`, whose denylist differs
from the URL validator's: `ftp:` for `ftp://`, `.exe` and `.json` added,
`.svg`, `.tar`, `.gz` absent) with no include/exclude patterns consulted;
a sitemap index resolves to the concatenation of its recursively resolved
children. -/
theorem sitemap_resolution :
    (∀ (baseUrl : String) (xmlSources : List SitemapTree)
        (htmlSourceUrls : List String),
      (extractUrlsFromSitemap baseUrl xmlSources htmlSourceUrls).Nodup)
    ∧ (∀ (baseUrl : String) (xmlSources : List SitemapTree)
        (htmlSourceUrls : List String) (u : String),
        u ∈ extractUrlsFromSitemap baseUrl xmlSources htmlSourceUrls ↔
          (u ∈ (xmlSources.map parseXmlSitemap).flatten ++ htmlSourceUrls
            ∧ sitemapIsValidUrl u baseUrl = true))
    ∧ (∀ children : List SitemapTree,
        parseXmlSitemap (SitemapTree.index children) =
          (children.map parseXmlSitemap).flatten) := by
  refine ⟨?_, ?_, ?_⟩
  · intro baseUrl xs hs
    simp only [extractUrlsFromSitemap]
    exact List.Nodup.filter _ (List.nodup_dedup _)
  · intro baseUrl xs hs u
    simp only [extractUrlsFromSitemap]
    rw [List.mem_filter, List.mem_dedup]
  · intro children
    simp only [parseXmlSitemap]
    congr 1
    exact List.attach_map_coe children parseXmlSitemap

theorem traverseDocAux_length_le (fetch : String → Option FetchedPage)
    (maxPages maxDepth : Nat) (q : List (String × Nat)) (visited : List String)
    (pages : List TravPage) (flog : List String) :
    (traverseDocAux fetch maxPages maxDepth q visited pages flog).1.length ≤
      max pages.length maxPages := by
  induction q, visited, pages, flog using traverseDocAux.induct fetch maxPages maxDepth with
  | case1 visited pages flog =>
    simp [traverseDocAux]
  | case2 url depth rest visited pages flog hfull =>
    simp [traverseDocAux, hfull]
  | case3 url depth rest visited pages flog hfull hskip ih =>
    have hskip' : maxDepth < depth ∨ url ∈ visited := by simpa using hskip
    simpa [traverseDocAux, hfull, hskip'] using ih
  | case4 url depth rest visited pages flog hfull hskip hf ih =>
    have hskip' : ¬(maxDepth < depth ∨ url ∈ visited) := by simpa using hskip
    simpa [traverseDocAux, hfull, hskip', hf] using ih
  | case5 url depth rest visited pages flog hfull hskip pd hf enq ih =>
    have hlt : pages.length < maxPages := Nat.lt_of_not_le hfull
    have hih : (traverseDocAux fetch maxPages maxDepth
        (rest ++ List.map (fun l => (l, depth + 1)) enq) (url :: visited)
        (pages ++ [⟨url, depth⟩]) (flog ++ [url])).1.length ≤ maxPages := by
      have h2 := ih
      rw [le_max_iff] at h2
      rcases h2 with h | h
      · simp only [List.length_append, List.length_cons, List.length_nil] at h
        omega
      · exact h
    rw [le_max_iff]
    right
    simp only [traverseDocAux]
    rw [if_neg hfull, if_neg hskip]
    simp only [hf]
    exact hih

theorem traverseDocAux_flog_nodup (fetch : String → Option FetchedPage)
    (maxPages maxDepth : Nat) (q : List (String × Nat)) (visited : List String)
    (pages : List TravPage) (flog : List String) :
    flog.Nodup → (∀ u ∈ flog, u ∈ visited) →
      (traverseDocAux fetch maxPages maxDepth q visited pages flog).2.Nodup := by
  induction q, visited, pages, flog using traverseDocAux.induct fetch maxPages maxDepth with
  | case1 visited pages flog =>
    intro h1 _
    simpa [traverseDocAux] using h1
  | case2 url depth rest visited pages flog hfull =>
    intro h1 _
    simpa [traverseDocAux, hfull] using h1
  | case3 url depth rest visited pages flog hfull hskip ih =>
    intro h1 h2
    have hskip' : maxDepth < depth ∨ url ∈ visited := by simpa using hskip
    simpa [traverseDocAux, hfull, hskip'] using ih h1 h2
  | case4 url depth rest visited pages flog hfull hskip hf ih =>
    intro h1 h2
    have hskip' : ¬(maxDepth < depth ∨ url ∈ visited) := by simpa using hskip
    have hnv : url ∉ visited := fun hm => hskip' (Or.inr hm)
    have h1' : (flog ++ [url]).Nodup := by
      rw [List.nodup_append]
      refine ⟨h1, List.nodup_singleton url, ?_⟩
      intro a ha hb
      rw [List.mem_singleton.mp hb] at ha
      exact hnv (h2 url ha)
    have h2' : ∀ u ∈ flog ++ [url], u ∈ url :: visited := by
      intro u hu
      rcases List.mem_append.mp hu with h | h
      · exact List.mem_cons_of_mem _ (h2 u h)
      · rw [List.mem_singleton.mp h]
        exact List.mem_cons_self _ _
    simpa [traverseDocAux, hfull, hskip', hf] using ih h1' h2'
  | case5 url depth rest visited pages flog hfull hskip pd hf enq ih =>
    intro h1 h2
    have hskip' : ¬(maxDepth < depth ∨ url ∈ visited) := by simpa using hskip
    have hnv : url ∉ visited := fun hm => hskip' (Or.inr hm)
    have h1' : (flog ++ [url]).Nodup := by
      rw [List.nodup_append]
      refine ⟨h1, List.nodup_singleton url, ?_⟩
      intro a ha hb
      rw [List.mem_singleton.mp hb] at ha
      exact hnv (h2 url ha)
    have h2' : ∀ u ∈ flog ++ [url], u ∈ url :: visited := by
      intro u hu
      rcases List.mem_append.mp hu with h | h
      · exact List.mem_cons_of_mem _ (h2 u h)
      · rw [List.mem_singleton.mp h]
        exact List.mem_cons_self _ _
    have hres := ih h1' h2'
    simp only [traverseDocAux]
    rw [if_neg hfull, if_neg hskip]
    simp only [hf]
    exact hres

theorem traverseDocAux_stop_full (fetch : String → Option FetchedPage) (md : Nat)
    (seed : String) (q : List (String × Nat)) (v flog : List String) :
    traverseDocAux fetch 1 md q v [⟨seed, 0⟩] flog = ([⟨seed, 0⟩], flog) := by
  cases q with
  | nil => simp [traverseDocAux]
  | cons a rest =>
    obtain ⟨u, d⟩ := a
    simp [traverseDocAux]

theorem traverseDoc_single (fetch : String → Option FetchedPage) (md : Nat)
    (seed : String) (pd : FetchedPage) (h : fetch seed = some pd) :
    traverseDocumentation fetch seed 1 md = [⟨seed, 0⟩] := by
  rw [traverseDocumentation]
  have h0 : ¬(1 ≤ ([] : List TravPage).length) := by simp
  have hskip : ¬((decide (0 > md) || ([] : List String).contains seed) = true) := by
    simp
  simp only [traverseDocAux]
  rw [if_neg h0, if_neg hskip]
  simp only [h, List.nil_append]
  rw [traverseDocAux_stop_full]

/-- C4: a docs-mode traversal never returns more than the configured
maximum number of pages, never passes the same URL to the page fetcher
twice within a run, and with `max_pages = 1` returns exactly the seed
page, however many on-topic links the seed page carries. -/
theorem traversal_bound :
    (∀ (fetch : String → Option FetchedPage) (docsUrl : String)
        (maxPages maxDepth : Nat),
      (traverseDocumentation fetch docsUrl maxPages maxDepth).length ≤ maxPages)
    ∧ (∀ (fetch : String → Option FetchedPage) (docsUrl : String)
        (maxPages maxDepth : Nat),
      (traverseDocFetchLog fetch docsUrl maxPages maxDepth).Nodup)
    ∧ (∀ (fetch : String → Option FetchedPage) (docsUrl : String) (maxDepth : Nat)
        (pd : FetchedPage), fetch docsUrl = some pd →
        traverseDocumentation fetch docsUrl 1 maxDepth = [⟨docsUrl, 0⟩]) := by
  refine ⟨?_, ?_, ?_⟩
  · intro fetch url mp md
    have h := traverseDocAux_length_le fetch mp md [(url, 0)] [] [] []
    simpa [traverseDocumentation] using h
  · intro fetch url mp md
    exact traverseDocAux_flog_nodup fetch mp md [(url, 0)] [] [] [] List.nodup_nil
      (by intro u hu; exact absurd hu (List.not_mem_nil u))
  · intro fetch url md pd h
    exact traverseDoc_single fetch md url pd h

/-- C4 witness: with `max_pages = 1`, traversing a seed page that carries
thirty documentation links returns exactly the seed page. -/
theorem traversal_bound_witness :
    traverseDocumentation c4Fetch "https://docs.example.com/" 1 3 =
      [⟨"https://docs.example.com/", 0⟩] :=
  traversal_bound.2.2 c4Fetch "https://docs.example.com/" 3 ⟨"Docs", seedAnchors⟩
    (by decide)

end LlmsGen
